import Mathlib

/-!
# Verification of the quicksort-teaching backend's scoring and recommendation logic

This development embeds the core logic of the repository
(`app/utils/recommendation.py`: `calculate_skill_scores` and
`generate_recommendations`, together with the static knowledge tables, and the
chat matcher `match_answer` of `app/utils/chat_engine.py`) into Lean and proves
the documented properties about it.

Python integers are modelled by `Int`.  The step-bonus ratio, computed by
Python in floating point, is modelled as the exact rational
`total_viewed * 30 / max(total_animation_steps, 1)` rounded with Python's
round-half-to-even semantics, implemented over `Int` (`pyRoundFrac`).  Python
dictionaries with possibly missing keys are modelled by structures of `Option`
fields, with `Option.getD` standing for `dict.get(key, default)`.  Python
dicts preserve insertion order, so a topic-to-score dict is modelled by an
association list.
-/

/-- The static topic table `KNOWLEDGE_MAP` of `recommendation.py`:
topic name → list of source-code line numbers belonging to that topic. -/
def KNOWLEDGE_MAP : List (String × List Int) :=
  [("分治思想", [1, 2, 7, 8]),
   ("基准选择", [11, 12, 20, 21]),
   ("分区操作", [4, 10, 13, 14, 15, 16, 17, 18, 19, 22]),
   ("递归调用", [3, 5, 6]),
   ("复杂度分析", [])]

/-- A progression resource of `KNOWLEDGE_GRAPH_RESOURCES`. -/
structure KGResource where
  next : String
  difficulty : String
  tip : String
deriving DecidableEq, Repr

/-- The static table `KNOWLEDGE_GRAPH_RESOURCES` of `recommendation.py`. -/
def KNOWLEDGE_GRAPH_RESOURCES : List (String × KGResource) :=
  [("分治思想", ⟨"归并排序", "medium", "理解分治后，可以学习同样基于分治的归并排序"⟩),
   ("基准选择", ⟨"随机化快排", "medium", "掌握基准选择后，尝试实现随机化版本"⟩),
   ("分区操作", ⟨"Hoare分区法", "hard", "掌握Lomuto分区后，可以学习更高效的Hoare分区"⟩),
   ("递归调用", ⟨"尾递归优化", "hard", "理解递归后，学习如何用尾递归优化减少栈空间"⟩),
   ("复杂度分析", ⟨"主定理", "hard", "深入学习主定理(Master Theorem)来分析递归算法复杂度"⟩)]

/-- The static table `ADVICE_MAP` of `recommendation.py`. -/
def ADVICE_MAP : List (String × String) :=
  [("分治思想", "建议重新阅读算法思想面板，理解\x22分而治之\x22的核心：先分区，再递归处理子问题。"),
   ("基准选择", "试着思考：如果选不同的元素作为基准，分区结果会怎样？可以向AI助手提问\x22基准选择策略\x22。"),
   ("分区操作", "分区是快速排序最关键的步骤。建议用单步模式仔细观察第11-22行代码的执行过程。"),
   ("递归调用", "递归可能比较抽象。建议关注第5-6行，观察排序是如何被分解为更小的子问题的。"),
   ("复杂度分析", "试着向AI助手提问\x22时间复杂度\x22或\x22最坏情况\x22，深入理解快速排序的性能特征。")]

/-- The user profile dictionary consumed by `calculate_skill_scores`.
Each field is optional, modelling a Python dict that may lack the key;
`Option.getD` models `dict.get(key, default)`. -/
structure UserProfileDict where
  total_steps_viewed : Option Int := none
  marked_lines : Option (List Int) := none
  questions_asked : Option Int := none
  question_topics : Option (List String) := none
  completed_runs : Option Int := none
deriving DecidableEq, Repr

/-- Python's built-in `round` (round half to even) applied to the exact
fraction `num / den`, for a positive denominator. -/
def pyRoundFrac (num den : Int) : Int :=
  let q := Int.fdiv num den
  let r := num - q * den
  if 2 * r < den then q
  else if 2 * r > den then q + 1
  else if q % 2 = 0 then q else q + 1

/-- `base_score` of `calculate_skill_scores`:
10 points once the user has viewed at least one step. -/
def profileBase (p : UserProfileDict) : Int :=
  if p.total_steps_viewed.getD 0 > 0 then 10 else 0

/-- `step_bonus` of `calculate_skill_scores`:
`min(30, round((total_viewed / max(total_animation_steps, 1)) * 30))`,
with the ratio taken as an exact rational. -/
def profileStepBonus (p : UserProfileDict) (total_animation_steps : Int) : Int :=
  min 30 (pyRoundFrac (p.total_steps_viewed.getD 0 * 30) (max total_animation_steps 1))

/-- `complete_bonus` of `calculate_skill_scores`: `min(30, completed * 15)`. -/
def profileCompleteBonus (p : UserProfileDict) : Int :=
  min 30 (p.completed_runs.getD 0 * 15)

/-- The body of the per-topic loop of `calculate_skill_scores`, before the
final clamp: question bonus, mark deduction, and the special per-occurrence
bonus for the topic 复杂度分析 whose line set is empty. -/
def topicScore (base_score step_bonus complete_bonus : Int) (marked_lines : List Int)
    (question_topics : List String) (knowledge : String) (lines : List Int) : Int :=
  let s0 := base_score + step_bonus + complete_bonus
  let s1 := if knowledge ∈ question_topics then s0 + 15 else s0
  let s2 := s1 - 10 * ((marked_lines.filter (fun ln => ln ∈ lines)).length : Int)
  if knowledge = "复杂度分析" then
    s2 + 10 * ((question_topics.count "复杂度分析" : Nat) : Int)
  else s2

/-- The pre-clamp score `calculate_skill_scores` computes for one topic. -/
def profilePreScore (p : UserProfileDict) (total_animation_steps : Int)
    (knowledge : String) (lines : List Int) : Int :=
  topicScore (profileBase p) (profileStepBonus p total_animation_steps)
    (profileCompleteBonus p) (p.marked_lines.getD []) (p.question_topics.getD [])
    knowledge lines

/-- The final clamp of `calculate_skill_scores`: `max(0, min(100, score))`. -/
def clampScore (s : Int) : Int := max 0 (min 100 s)

/-- `calculate_skill_scores` of `recommendation.py`: per-topic mastery scores
over the fixed `KNOWLEDGE_MAP`, each clamped to `[0, 100]`. -/
def calculate_skill_scores (p : UserProfileDict) (total_animation_steps : Int := 50) :
    List (String × Int) :=
  KNOWLEDGE_MAP.map (fun kl =>
    (kl.1, clampScore (profilePreScore p total_animation_steps kl.1 kl.2)))

/-- One recommendation record produced by `generate_recommendations`.
The three `next_*` fields model the keys that the Python dict only receives
when the topic is present in `KNOWLEDGE_GRAPH_RESOURCES`. -/
structure Recommendation where
  knowledge : String
  score : Int
  tag : String
  tag_class : String
  advice : String
  next_topic : Option String := none
  next_difficulty : Option String := none
  next_tip : Option String := none
deriving DecidableEq, Repr

/-- `generate_recommendations` of `recommendation.py`: stable-sort the
topic/score pairs ascending by score (Python's `sorted` with `key=lambda
x: x[1]` is a stable ascending sort; `List.insertionSort` with the same
non-strict ordering is the stable ascending sort, so the two agree on every
input), take the first `top_n`, and build a record for each. -/
def generate_recommendations (skill_scores : List (String × Int)) (top_n : Nat := 5) :
    List Recommendation :=
  let sorted_scores := skill_scores.insertionSort (fun a b => a.2 ≤ b.2)
  (sorted_scores.take top_n).map (fun (ns : String × Int) =>
    let tagPair : String × String :=
      if ns.2 ≥ 70 then ("掌握良好", "easy")
      else if ns.2 ≥ 40 then ("需要加强", "medium")
      else ("建议重点学习", "hard")
    let base : Recommendation :=
      { knowledge := ns.1
        score := ns.2
        tag := tagPair.1
        tag_class := tagPair.2
        advice := (ADVICE_MAP.lookup ns.1).getD "" }
    match KNOWLEDGE_GRAPH_RESOURCES.lookup ns.1 with
    | some res =>
      { base with
        next_topic := some res.next
        next_difficulty := some res.difficulty
        next_tip := some res.tip }
    | none => base)

/-- One entry of the QA knowledge base consumed by the chat matcher. -/
structure QAEntry where
  keywords : List String
  topic : String
  answer : String
deriving DecidableEq, Repr

/-- Modelled from the spec: the chat-engine module (`app/utils/chat_engine.py`,
providing `match_answer` and `QA_KNOWLEDGE_BASE`) is not part of the repository
snapshot; only its import and callers are.  The spec fixes the matcher's
scoring as substring containment of each keyword in the question text.  The
overlap count of one entry is the number of its keywords contained in the
question. -/
def keywordOverlap (question : String) (e : QAEntry) : Nat :=
  (e.keywords.filter (fun kw => decide (kw.data <:+: question.data))).length

/-- Modelled from the spec: the fixed fallback answer returned when no
knowledge-base entry overlaps the question (its exact wording is not given
by the spec, only that it is a fixed constant). -/
def FALLBACK_ANSWER : String := "抱歉，我暂时无法回答这个问题，请换个方式提问。"

/-- Modelled from the spec: the scanning loop of `match_answer` — keep the
first entry whose overlap strictly exceeds the best seen so far, so the first
entry reaching the maximum overlap wins. -/
def bestMatchGo (question : String) (acc : Option QAEntry × Nat) :
    List QAEntry → Option QAEntry × Nat
  | [] => acc
  | e :: rest =>
    bestMatchGo question
      (if keywordOverlap question e > acc.2 then (some e, keywordOverlap question e) else acc)
      rest

/-- Modelled from the spec: `match_answer` of `chat_engine.py` — scan the
knowledge base for the best keyword overlap; if no entry has any overlap,
return the fixed fallback answer with an empty topic, otherwise the answer
and topic of the first entry reaching the maximum overlap count. -/
def match_answer (kb : List QAEntry) (question : String) : String × String :=
  match (bestMatchGo question (none, 0) kb).1 with
  | some e => (e.answer, e.topic)
  | none => (FALLBACK_ANSWER, "")

/-- The maximum keyword overlap over a knowledge base. -/
def maxOverlap (question : String) : List QAEntry → Nat
  | [] => 0
  | e :: rest => max (keywordOverlap question e) (maxOverlap question rest)

/-! ## Basic lemmas about the scorer -/

/-- Looking a key up in a key-preserving `map` over an association list. -/
theorem lookup_map_value {β γ : Type} (g : String → β → γ) :
    ∀ (l : List (String × β)) (T : String) (v : β), l.lookup T = some v →
      (l.map (fun kl => (kl.1, g kl.1 kl.2))).lookup T = some (g T v) := by
  intro l
  induction l with
  | nil => intro T v h; simp [List.lookup] at h
  | cons kb rest ih =>
    intro T v h
    obtain ⟨k, b⟩ := kb
    rw [List.map_cons]
    cases hTk : T == k with
    | true =>
      have hEq : T = k := eq_of_beq hTk
      subst hEq
      simp only [List.lookup_cons_self] at h
      cases h
      exact List.lookup_cons_self
    | false =>
      rw [List.lookup_cons, hTk] at h
      rw [List.lookup_cons]
      simp only [hTk]
      exact ih T v h

/-- `clampScore` between a nonnegative value and 100 is the identity. -/
theorem clampScore_of_nonneg_le (s : Int) (h0 : 0 ≤ s) (h1 : s ≤ 100) :
    clampScore s = s := by
  unfold clampScore; omega

/-- The base score is between 0 and 10. -/
theorem profileBase_bounds (p : UserProfileDict) :
    0 ≤ profileBase p ∧ profileBase p ≤ 10 := by
  unfold profileBase; split <;> omega

/-- The step bonus is capped at 30. -/
theorem profileStepBonus_le (p : UserProfileDict) (steps : Int) :
    profileStepBonus p steps ≤ 30 := by
  unfold profileStepBonus; omega

/-- The completion bonus is capped at 30. -/
theorem profileCompleteBonus_le (p : UserProfileDict) :
    profileCompleteBonus p ≤ 30 := by
  unfold profileCompleteBonus; omega

/-- Closed form of `topicScore` away from the special topic 复杂度分析. -/
theorem topicScore_eq_of_ne (b s c : Int) (ml : List Int) (qt : List String)
    (k : String) (lines : List Int) (h : k ≠ "复杂度分析") :
    topicScore b s c ml qt k lines =
      b + s + c + (if k ∈ qt then 15 else 0)
        - 10 * ((ml.filter (fun ln => ln ∈ lines)).length : Int) := by
  simp only [topicScore, if_neg h]
  split_ifs <;> ring

/-- Closed form of `topicScore` at the special topic 复杂度分析. -/
theorem topicScore_eq_complexity (b s c : Int) (ml : List Int) (qt : List String)
    (lines : List Int) :
    topicScore b s c ml qt "复杂度分析" lines =
      b + s + c + (if "复杂度分析" ∈ qt then 15 else 0)
        - 10 * ((ml.filter (fun ln => ln ∈ lines)).length : Int)
        + 10 * ((qt.count "复杂度分析" : Nat) : Int) := by
  simp only [topicScore, if_pos rfl]
  split_ifs <;> ring

/-- Away from 复杂度分析 the pre-clamp score never exceeds 85
(base 10 + step 30 + completion 30 + question 15). -/
theorem profilePreScore_le (p : UserProfileDict) (steps : Int) (T : String)
    (lines : List Int) (h : T ≠ "复杂度分析") :
    profilePreScore p steps T lines ≤ 85 := by
  have hb := profileBase_bounds p
  have hs := profileStepBonus_le p steps
  have hc := profileCompleteBonus_le p
  unfold profilePreScore
  rw [topicScore_eq_of_ne _ _ _ _ _ _ _ h]
  have hlen : (0 : Int) ≤
      (((p.marked_lines.getD []).filter
        (fun ln => ln ∈ lines)).length : Int) := Int.ofNat_nonneg _
  split_ifs <;> omega

/-- `calculate_skill_scores` looked up at a topic of `KNOWLEDGE_MAP` is the
clamped pre-clamp score of that topic. -/
theorem calc_lookup (p : UserProfileDict) (steps : Int) (T : String)
    (lines : List Int) (hT : KNOWLEDGE_MAP.lookup T = some lines) :
    (calculate_skill_scores p steps).lookup T =
      some (clampScore (profilePreScore p steps T lines)) :=
  lookup_map_value (fun k ls => clampScore (profilePreScore p steps k ls))
    KNOWLEDGE_MAP T lines hT

/-- A topic of `KNOWLEDGE_MAP` with a non-empty line set is not 复杂度分析. -/
theorem ne_complexity_of_lines_ne_nil (T : String) (lines : List Int)
    (hT : KNOWLEDGE_MAP.lookup T = some lines) (hne : lines ≠ []) :
    T ≠ "复杂度分析" := by
  intro hEq
  subst hEq
  have hv : KNOWLEDGE_MAP.lookup "复杂度分析" = some ([] : List Int) := by decide
  rw [hv] at hT
  exact hne (Option.some.inj hT).symm

/-! ## Claim theorems: the skill scorer -/

/-- C1: for every profile dictionary and every total_animation_steps value,
every score in the mapping returned by `calculate_skill_scores` lies in the
interval [0, 100]. -/
theorem skill_scores_within_range (p : UserProfileDict) (steps : Int)
    (kv : String × Int) (h : kv ∈ calculate_skill_scores p steps) :
    0 ≤ kv.2 ∧ kv.2 ≤ 100 := by
  unfold calculate_skill_scores at h
  obtain ⟨kl, _, rfl⟩ := List.mem_map.1 h
  unfold clampScore
  constructor
  · omega
  · omega

/-- Witness for C1 at a concrete profile and entry. -/
theorem skill_scores_within_range_witness :
    0 ≤ (("分治思想", (0 : Int)) : String × Int).2 ∧
      (("分治思想", (0 : Int)) : String × Int).2 ≤ 100 :=
  skill_scores_within_range {} 50 ("分治思想", 0) (by decide)

/-- C3: `calculate_skill_scores` is total for every integer
total_animation_steps; a non-positive value is clamped to 1 in the step-bonus
divisor, so the division never divides by zero: the scores for a non-positive
step count coincide with the scores for 1, and the divisor is always ≥ 1. -/
theorem nonpos_steps_safe (p : UserProfileDict) (steps : Int) (h : steps ≤ 0) :
    calculate_skill_scores p steps = calculate_skill_scores p 1 ∧
      (1 : Int) ≤ max steps 1 := by
  constructor
  · have hstep : profileStepBonus p steps = profileStepBonus p 1 := by
      unfold profileStepBonus
      have : max steps 1 = max 1 1 := by omega
      rw [this]
    unfold calculate_skill_scores profilePreScore
    rw [hstep]
  · omega

/-- Witness for C3 at a concrete negative step count. -/
theorem nonpos_steps_safe_witness :
    calculate_skill_scores {} (-5) = calculate_skill_scores {} 1 ∧
      (1 : Int) ≤ max (-5) 1 :=
  nonpos_steps_safe {} (-5) (by decide)

/-- C7: for every input dictionary — whatever subset of its fields is
missing — the key list of the result is exactly the five topics of
`KNOWLEDGE_MAP`, and the dictionary is scored identically to the one carrying
the explicit zero/empty defaults in place of its missing fields: missing
fields never cause an error, they default. -/
theorem skill_scores_keys_defaults (p : UserProfileDict) (steps : Int) :
    (calculate_skill_scores p steps).map Prod.fst =
        ["分治思想", "基准选择", "分区操作", "递归调用", "复杂度分析"] ∧
      calculate_skill_scores p steps =
        calculate_skill_scores
          { total_steps_viewed := some (p.total_steps_viewed.getD 0)
            marked_lines := some (p.marked_lines.getD [])
            questions_asked := some (p.questions_asked.getD 0)
            question_topics := some (p.question_topics.getD [])
            completed_runs := some (p.completed_runs.getD 0) } steps :=
  ⟨rfl, rfl⟩

/-- C5: the topic 复杂度分析 (the unique topic whose `KNOWLEDGE_MAP` line set
is empty) receives, before the final clamp, an extra 10 × (number of
occurrences of that exact name in question_topics); no other topic receives a
per-occurrence bonus — their pre-clamp score depends on the topics list only
through the presence flag.  The looked-up score of 复杂度分析 is exactly the
clamp of that pre-clamp value. -/
theorem complexity_question_bonus :
    (∀ (b s c : Int) (ml : List Int) (qt : List String),
      topicScore b s c ml qt "复杂度分析" [] =
        b + s + c + (if "复杂度分析" ∈ qt then 15 else 0)
          + 10 * ((qt.count "复杂度分析" : Nat) : Int)) ∧
    (∀ (b s c : Int) (ml : List Int) (qt : List String) (k : String)
        (lines : List Int), k ≠ "复杂度分析" →
      topicScore b s c ml qt k lines =
        b + s + c + (if k ∈ qt then 15 else 0)
          - 10 * ((ml.filter (fun ln => ln ∈ lines)).length : Int)) ∧
    (∀ (p : UserProfileDict) (steps : Int),
      (calculate_skill_scores p steps).lookup "复杂度分析" =
        some (clampScore (profilePreScore p steps "复杂度分析" []))) := by
  refine ⟨?_, ?_, ?_⟩
  · intro b s c ml qt
    rw [topicScore_eq_complexity]
    simp
  · intro b s c ml qt k lines h
    exact topicScore_eq_of_ne b s c ml qt k lines h
  · intro p steps
    exact calc_lookup p steps "复杂度分析" [] (by decide)

/-- Witness for C5 at concrete inputs (two occurrences of the topic name). -/
theorem complexity_question_bonus_witness :
    topicScore 10 0 0 [] ["复杂度分析", "复杂度分析"] "复杂度分析" [] =
      10 + 0 + 0 + (if "复杂度分析" ∈ ["复杂度分析", "复杂度分析"] then 15 else 0)
        + 10 * (((["复杂度分析", "复杂度分析"].count "复杂度分析" : Nat)) : Int) :=
  complexity_question_bonus.1 10 0 0 [] ["复杂度分析", "复杂度分析"]

/-- C2 counterexample: the claimed "+15 exactly" fails as stated.
With eight marks on line 1 the 分治思想 score is clamped at 0 both without and
with the topic in question_topics (increase 0, not 15); and for 复杂度分析
adding one occurrence of the name raises the score from 0 to 25 (increase 25,
not 15), because of its per-occurrence bonus. -/
theorem question_bonus_plus15_counterexample :
    (calculate_skill_scores { marked_lines := some [1, 1, 1, 1, 1, 1, 1, 1] }
        50).lookup "分治思想" = some 0 ∧
      (calculate_skill_scores
        { marked_lines := some [1, 1, 1, 1, 1, 1, 1, 1]
          question_topics := some ["分治思想"] } 50).lookup "分治思想" = some 0 ∧
      (calculate_skill_scores {} 50).lookup "复杂度分析" = some 0 ∧
      (calculate_skill_scores { question_topics := some ["复杂度分析"] }
        50).lookup "复杂度分析" = some 25 := by
  refine ⟨?_, ?_, ?_, ?_⟩ <;> decide

/-- C2 amended: for a topic T of `KNOWLEDGE_MAP` other than 复杂度分析 that is
absent from question_topics, appending any positive number of occurrences of T
raises the looked-up score by exactly 15, provided the pre-clamp score without
the bonus is nonnegative (so the clamp at 0 does not absorb the bonus); the
number of occurrences does not matter, only presence. -/
theorem question_bonus_plus15_amended (p : UserProfileDict) (steps : Int)
    (T : String) (lines : List Int) (k : Nat)
    (hT : KNOWLEDGE_MAP.lookup T = some lines) (hne : T ≠ "复杂度分析")
    (hnotin : T ∉ p.question_topics.getD []) (hk : 1 ≤ k)
    (hpre : 0 ≤ profilePreScore p steps T lines) :
    ∃ v, (calculate_skill_scores p steps).lookup T = some v ∧
      (calculate_skill_scores
        { p with
          question_topics := some (p.question_topics.getD [] ++ List.replicate k T) }
        steps).lookup T = some (v + 15) := by
  set p' : UserProfileDict :=
    { p with
      question_topics := some (p.question_topics.getD [] ++ List.replicate k T) } with hp'
  have hmem : T ∈ p.question_topics.getD [] ++ List.replicate k T := by
    refine List.mem_append.2 (Or.inr ?_)
    exact List.mem_replicate.2 ⟨by omega, rfl⟩
  have hpre2 : profilePreScore p' steps T lines =
      profilePreScore p steps T lines + 15 := by
    show topicScore (profileBase p) (profileStepBonus p steps)
        (profileCompleteBonus p) (p.marked_lines.getD [])
        (p.question_topics.getD [] ++ List.replicate k T) T lines
      = profilePreScore p steps T lines + 15
    unfold profilePreScore
    rw [topicScore_eq_of_ne _ _ _ _ _ _ _ hne,
      topicScore_eq_of_ne _ _ _ _ _ _ _ hne, if_pos hmem, if_neg hnotin]
    ring
  have hub : profilePreScore p steps T lines ≤ 85 := profilePreScore_le p steps T lines hne
  refine ⟨profilePreScore p steps T lines, ?_, ?_⟩
  · rw [calc_lookup p steps T lines hT,
      clampScore_of_nonneg_le _ hpre (by omega)]
  · rw [calc_lookup p' steps T lines hT, hpre2,
      clampScore_of_nonneg_le _ (by omega) (by omega)]

/-- Witness for the amended C2 at a concrete profile (score 0 → 15). -/
theorem question_bonus_plus15_amended_witness :
    ∃ v, (calculate_skill_scores {} 50).lookup "分治思想" = some v ∧
      (calculate_skill_scores
        { question_topics := some ["分治思想", "分治思想"] }
        50).lookup "分治思想" = some (v + 15) :=
  question_bonus_plus15_amended {} 50 "分治思想" [1, 2, 7, 8] 2
    (by decide) (by decide) (by decide) (by decide) (by decide)

/-- C4: appending a line L belonging to topic T's line set to marked_lines
lowers T's looked-up score by exactly 10, clamped at 0. -/
theorem mark_deduction_minus10 (p : UserProfileDict) (steps : Int)
    (T : String) (lines : List Int) (L : Int)
    (hT : KNOWLEDGE_MAP.lookup T = some lines) (hL : L ∈ lines) :
    ∃ v, (calculate_skill_scores p steps).lookup T = some v ∧
      (calculate_skill_scores
        { p with marked_lines := some (p.marked_lines.getD [] ++ [L]) }
        steps).lookup T = some (max 0 (v - 10)) := by
  have hne : T ≠ "复杂度分析" :=
    ne_complexity_of_lines_ne_nil T lines hT (List.ne_nil_of_mem hL)
  set p' : UserProfileDict :=
    { p with marked_lines := some (p.marked_lines.getD [] ++ [L]) } with hp'
  have hpre2 : profilePreScore p' steps T lines =
      profilePreScore p steps T lines - 10 := by
    show topicScore (profileBase p) (profileStepBonus p steps)
        (profileCompleteBonus p) (p.marked_lines.getD [] ++ [L])
        (p.question_topics.getD []) T lines
      = profilePreScore p steps T lines - 10
    unfold profilePreScore
    have hfL : ([L].filter (fun ln => ln ∈ lines)) = [L] := by
      simp [List.filter, hL]
    rw [topicScore_eq_of_ne _ _ _ _ _ _ _ hne,
      topicScore_eq_of_ne _ _ _ _ _ _ _ hne, List.filter_append, hfL,
      List.length_append, List.length_singleton]
    push_cast
    ring
  have hub : profilePreScore p steps T lines ≤ 85 := profilePreScore_le p steps T lines hne
  refine ⟨clampScore (profilePreScore p steps T lines), ?_, ?_⟩
  · exact calc_lookup p steps T lines hT
  · rw [calc_lookup p' steps T lines hT, hpre2]
    unfold clampScore
    congr 1
    omega

/-- Witness for C4 at a concrete profile (score 70 → 60). -/
theorem mark_deduction_minus10_witness :
    ∃ v, (calculate_skill_scores
        { total_steps_viewed := some 50, completed_runs := some 2 }
        50).lookup "分治思想" = some v ∧
      (calculate_skill_scores
        { total_steps_viewed := some 50, marked_lines := some [1]
          completed_runs := some 2 }
        50).lookup "分治思想" = some (max 0 (v - 10)) :=
  mark_deduction_minus10 { total_steps_viewed := some 50, completed_runs := some 2 }
    50 "分治思想" [1, 2, 7, 8] 1 (by decide) (by decide)

/-- C9: marked_lines counts by list multiplicity: k appended duplicates of a
line of T's line set lower T's pre-clamp score by 10 × k, and a profile with a
duplicated mark scores strictly lower than the same profile with the mark
listed once, whenever the single-mark score is above the 0 clamp. -/
theorem marked_lines_multiplicity (p : UserProfileDict) (steps : Int)
    (T : String) (lines : List Int) (L : Int) (k : Nat)
    (hT : KNOWLEDGE_MAP.lookup T = some lines) (hL : L ∈ lines) :
    (profilePreScore
        { p with marked_lines := some (p.marked_lines.getD [] ++ List.replicate k L) }
        steps T lines = profilePreScore p steps T lines - 10 * (k : Int)) ∧
      (∀ v1 v2,
        (calculate_skill_scores
          { p with marked_lines := some (p.marked_lines.getD [] ++ [L]) }
          steps).lookup T = some v1 →
        (calculate_skill_scores
          { p with marked_lines := some (p.marked_lines.getD [] ++ [L, L]) }
          steps).lookup T = some v2 →
        0 < v1 → v2 < v1) := by
  have hne : T ≠ "复杂度分析" :=
    ne_complexity_of_lines_ne_nil T lines hT (List.ne_nil_of_mem hL)
  have hub : profilePreScore p steps T lines ≤ 85 := profilePreScore_le p steps T lines hne
  have key : ∀ ext : List Int,
      profilePreScore { p with marked_lines := some (p.marked_lines.getD [] ++ ext) }
          steps T lines =
        profilePreScore p steps T lines
          - 10 * ((ext.filter (fun ln => ln ∈ lines)).length : Int) := by
    intro ext
    show topicScore (profileBase p) (profileStepBonus p steps)
        (profileCompleteBonus p) (p.marked_lines.getD [] ++ ext)
        (p.question_topics.getD []) T lines = _
    unfold profilePreScore
    rw [topicScore_eq_of_ne _ _ _ _ _ _ _ hne,
      topicScore_eq_of_ne _ _ _ _ _ _ _ hne, List.filter_append,
      List.length_append]
    push_cast
    ring
  constructor
  · rw [key (List.replicate k L)]
    rw [List.filter_replicate_of_pos (by simpa using hL), List.length_replicate]
  · intro v1 v2 h1 h2 hpos
    rw [calc_lookup _ steps T lines hT, key [L]] at h1
    rw [calc_lookup _ steps T lines hT, key [L, L]] at h2
    have hf1 : (([L].filter (fun ln => ln ∈ lines)).length : Int) = 1 := by
      simp [List.filter, hL]
    have hf2 : (([L, L].filter (fun ln => ln ∈ lines)).length : Int) = 2 := by
      simp [List.filter, hL]
    rw [hf1] at h1
    rw [hf2] at h2
    have e1 := Option.some.inj h1
    have e2 := Option.some.inj h2
    unfold clampScore at e1 e2
    omega

/-- Witness for C9 at a concrete profile: three duplicated marks cost 30
pre-clamp points, and the single-mark score 30 beats the double-mark score 20. -/
theorem marked_lines_multiplicity_witness :
    (profilePreScore
        { total_steps_viewed := some 50, marked_lines := some [1, 1, 1] }
        50 "分治思想" [1, 2, 7, 8] =
      profilePreScore { total_steps_viewed := some 50 } 50 "分治思想" [1, 2, 7, 8]
        - 10 * ((3 : Nat) : Int)) ∧
      (20 : Int) < 30 :=
  ⟨(marked_lines_multiplicity { total_steps_viewed := some 50 } 50 "分治思想"
      [1, 2, 7, 8] 1 3 (by decide) (by decide)).1,
    (marked_lines_multiplicity { total_steps_viewed := some 50 } 50 "分治思想"
      [1, 2, 7, 8] 1 3 (by decide) (by decide)).2 30 20
      (by decide) (by decide) (by decide)⟩

/-! ## Claim theorems: the recommender -/

/-- The knowledge/score pairs of the recommendation list are exactly the first
`top_n` entries of the stable ascending sort of the input. -/
theorem recommendations_pairs_eq (s : List (String × Int)) (n : Nat) :
    (generate_recommendations s n).map (fun r => (r.knowledge, r.score)) =
      (s.insertionSort (fun a b => a.2 ≤ b.2)).take n := by
  unfold generate_recommendations
  rw [List.map_map]
  conv_rhs => rw [← List.map_id ((s.insertionSort (fun a b => a.2 ≤ b.2)).take n)]
  refine List.map_congr_left ?_
  intro ns _
  simp only [Function.comp_apply, id_eq]
  cases hres : KNOWLEDGE_GRAPH_RESOURCES.lookup ns.1 <;> simp [hres]

/-- The insertion sort used by the recommender sorts by score. -/
theorem insertionSort_score_sorted (s : List (String × Int)) :
    (s.insertionSort (fun a b => a.2 ≤ b.2)).Sorted (fun a b => a.2 ≤ b.2) := by
  haveI : IsTotal (String × Int) (fun a b => a.2 ≤ b.2) := ⟨fun a b => le_total a.2 b.2⟩
  haveI : IsTrans (String × Int) (fun a b => a.2 ≤ b.2) :=
    ⟨fun a b c hab hbc => le_trans hab hbc⟩
  exact List.sorted_insertionSort _ s

/-- C6: `generate_recommendations` returns the topics sorted ascending by
score (stable: tied pairs keep their original relative order), truncated to
the first `top_n`, with the tier label determined by the score thresholds
70 and 40; on the scores {A:80, B:30, C:55} with limit 5 it returns
[B(30), C(55), A(80)] with tiers [建议重点学习, 需要加强, 掌握良好]. -/
theorem recommendations_order_and_tiers :
    (∀ (s : List (String × Int)) (n : Nat),
      (generate_recommendations s n).map (fun r => (r.knowledge, r.score)) =
        (s.insertionSort (fun a b => a.2 ≤ b.2)).take n) ∧
    (∀ (s : List (String × Int)) (n : Nat),
      ((generate_recommendations s n).map Recommendation.score).Sorted (· ≤ ·)) ∧
    (∀ (s : List (String × Int)) (a b : String × Int),
      [a, b].Sublist s → a.2 = b.2 →
      [a, b].Sublist (s.insertionSort (fun x y => x.2 ≤ y.2))) ∧
    (∀ (s : List (String × Int)) (n : Nat) (r : Recommendation),
      r ∈ generate_recommendations s n →
      r.tag = if r.score ≥ 70 then "掌握良好"
        else if r.score ≥ 40 then "需要加强" else "建议重点学习") ∧
    ((generate_recommendations [("A", 80), ("B", 30), ("C", 55)] 5).map
        (fun r => (r.knowledge, r.score, r.tag)) =
      [("B", 30, "建议重点学习"), ("C", 55, "需要加强"), ("A", 80, "掌握良好")]) := by
  refine ⟨recommendations_pairs_eq, ?_, ?_, ?_, by decide⟩
  · intro s n
    have hpairs := recommendations_pairs_eq s n
    have hmap : (generate_recommendations s n).map Recommendation.score =
        ((generate_recommendations s n).map (fun r => (r.knowledge, r.score))).map
          Prod.snd := by
      rw [List.map_map]
      rfl
    rw [hmap, hpairs]
    have hsorted := insertionSort_score_sorted s
    have htake : ((s.insertionSort (fun a b => a.2 ≤ b.2)).take n).Pairwise
        (fun a b => a.2 ≤ b.2) :=
      List.Pairwise.sublist (List.take_sublist n _) hsorted
    exact htake.map Prod.snd (fun a b h => h)
  · intro s a b hsub heq
    exact List.pair_sublist_insertionSort (le_of_eq heq) hsub
  · intro s n r hr
    unfold generate_recommendations at hr
    obtain ⟨ns, hmem, rfl⟩ := List.mem_map.1 hr
    cases hres : KNOWLEDGE_GRAPH_RESOURCES.lookup ns.1 <;>
      simp only [hres] <;> split_ifs <;> rfl

/-- Witness for C6: the stability conjunct at a concrete tied pair. -/
theorem recommendations_order_and_tiers_witness :
    [(("X", 1) : String × Int), ("Y", 1)].Sublist
      ([(("X", 1) : String × Int), ("Y", 1)].insertionSort (fun x y => x.2 ≤ y.2)) :=
  recommendations_order_and_tiers.2.2.1 [("X", 1), ("Y", 1)] ("X", 1) ("Y", 1)
    (List.Sublist.refl _) rfl

/-- C10: `generate_recommendations` is total: the empty mapping yields the
empty list, and a topic absent from the static tables still yields a record,
with advice defaulted to the empty string when absent from `ADVICE_MAP` and
the three `next_*` fields omitted when absent from
`KNOWLEDGE_GRAPH_RESOURCES`. -/
theorem recommendations_total_defaults :
    (∀ n : Nat, generate_recommendations [] n = []) ∧
    (∀ (s : List (String × Int)) (n : Nat) (r : Recommendation),
      r ∈ generate_recommendations s n →
      r.advice = (ADVICE_MAP.lookup r.knowledge).getD "" ∧
        (KNOWLEDGE_GRAPH_RESOURCES.lookup r.knowledge = none →
          r.next_topic = none ∧ r.next_difficulty = none ∧ r.next_tip = none)) := by
  constructor
  · intro n
    simp [generate_recommendations]
  · intro s n r hr
    unfold generate_recommendations at hr
    obtain ⟨ns, hmem, rfl⟩ := List.mem_map.1 hr
    cases hres : KNOWLEDGE_GRAPH_RESOURCES.lookup ns.1 <;> simp [hres]

/-- Witness for C10: a topic name outside every static table. -/
theorem recommendations_total_defaults_witness :
    ({ knowledge := "未知", score := 10, tag := "建议重点学习", tag_class := "hard"
       advice := "" } : Recommendation).advice =
        (ADVICE_MAP.lookup
          ({ knowledge := "未知", score := 10, tag := "建议重点学习", tag_class := "hard"
             advice := "" } : Recommendation).knowledge).getD "" ∧
      (KNOWLEDGE_GRAPH_RESOURCES.lookup
          ({ knowledge := "未知", score := 10, tag := "建议重点学习", tag_class := "hard"
             advice := "" } : Recommendation).knowledge = none →
        ({ knowledge := "未知", score := 10, tag := "建议重点学习", tag_class := "hard"
           advice := "" } : Recommendation).next_topic = none ∧
          ({ knowledge := "未知", score := 10, tag := "建议重点学习", tag_class := "hard"
             advice := "" } : Recommendation).next_difficulty = none ∧
          ({ knowledge := "未知", score := 10, tag := "建议重点学习", tag_class := "hard"
             advice := "" } : Recommendation).next_tip = none) :=
  recommendations_total_defaults.2 [("未知", 10)] 5
    { knowledge := "未知", score := 10, tag := "建议重点学习", tag_class := "hard"
      advice := "" } (by decide)

/-! ## Claim theorems: the chat matcher -/

/-- Every overlap in the knowledge base is bounded by the maximum. -/
theorem overlap_le_maxOverlap (q : String) :
    ∀ (l : List QAEntry) (e : QAEntry), e ∈ l →
      keywordOverlap q e ≤ maxOverlap q l := by
  intro l
  induction l with
  | nil => intro e he; cases he
  | cons a r ih =>
    intro e he
    rcases List.mem_cons.1 he with rfl | hmem
    · exact le_max_left _ _
    · exact le_trans (ih e hmem) (le_max_right _ _)

/-- The scan keeps its accumulator when nothing strictly beats it. -/
theorem bestMatchGo_of_le (q : String) :
    ∀ (l : List QAEntry) (acc : Option QAEntry × Nat),
      (∀ e ∈ l, keywordOverlap q e ≤ acc.2) → bestMatchGo q acc l = acc := by
  intro l
  induction l with
  | nil => intro acc _; rfl
  | cons a r ih =>
    intro acc h
    show bestMatchGo q
      (if keywordOverlap q a > acc.2 then (some a, keywordOverlap q a) else acc) r = acc
    rw [if_neg (not_lt.2 (h a (List.mem_cons_self a r)))]
    exact ih acc (fun e he => h e (List.mem_cons_of_mem a he))

/-- With an accumulator strictly below the maximum overlap, the scan ends on
the first entry reaching the maximum. -/
theorem bestMatchGo_argmax (q : String) :
    ∀ (l : List QAEntry) (acc : Option QAEntry × Nat),
      acc.2 < maxOverlap q l →
      ∃ e, l.find? (fun x => keywordOverlap q x == maxOverlap q l) = some e ∧
        bestMatchGo q acc l = (some e, maxOverlap q l) := by
  intro l
  induction l with
  | nil => intro acc hacc; simp [maxOverlap] at hacc
  | cons a r ih =>
    intro acc hacc
    by_cases hcase : maxOverlap q r ≤ keywordOverlap q a
    · have hM : maxOverlap q (a :: r) = keywordOverlap q a := max_eq_left hcase
      rw [hM] at hacc ⊢
      refine ⟨a, ?_, ?_⟩
      · exact List.find?_cons_of_pos _ (by simp)
      · show bestMatchGo q
          (if keywordOverlap q a > acc.2 then (some a, keywordOverlap q a) else acc) r
            = (some a, keywordOverlap q a)
        rw [if_pos hacc]
        exact bestMatchGo_of_le q r _
          (fun e he => le_trans (overlap_le_maxOverlap q r e he) hcase)
    · push_neg at hcase
      have hM : maxOverlap q (a :: r) = maxOverlap q r :=
        max_eq_right (le_of_lt hcase)
      rw [hM] at hacc ⊢
      have hfneg : ¬ ((keywordOverlap q a == maxOverlap q r) = true) := by
        simp [Nat.ne_of_lt hcase]
      by_cases hgt : keywordOverlap q a > acc.2
      · obtain ⟨e, hfind, hgo⟩ := ih (some a, keywordOverlap q a) hcase
        refine ⟨e, ?_, ?_⟩
        · have hstep : List.find? (fun x => keywordOverlap q x == maxOverlap q r) (a :: r)
              = List.find? (fun x => keywordOverlap q x == maxOverlap q r) r :=
            List.find?_cons_of_neg r hfneg
          rw [hstep]
          exact hfind
        · show bestMatchGo q
            (if keywordOverlap q a > acc.2 then (some a, keywordOverlap q a) else acc) r
              = (some e, maxOverlap q r)
          rw [if_pos hgt]
          exact hgo
      · obtain ⟨e, hfind, hgo⟩ := ih acc hacc
        refine ⟨e, ?_, ?_⟩
        · have hstep : List.find? (fun x => keywordOverlap q x == maxOverlap q r) (a :: r)
              = List.find? (fun x => keywordOverlap q x == maxOverlap q r) r :=
            List.find?_cons_of_neg r hfneg
          rw [hstep]
          exact hfind
        · show bestMatchGo q
            (if keywordOverlap q a > acc.2 then (some a, keywordOverlap q a) else acc) r
              = (some e, maxOverlap q r)
          rw [if_neg hgt]
          exact hgo

/-- C8: for every question, if no knowledge-base entry has any keyword
overlap with the text, `match_answer` returns the fixed fallback answer with
an empty topic; otherwise it returns the answer and topic of the first entry
reaching the maximum overlap count. -/
theorem match_answer_fallback_or_best (kb : List QAEntry) (q : String) :
    ((∀ e ∈ kb, keywordOverlap q e = 0) →
      match_answer kb q = (FALLBACK_ANSWER, "")) ∧
    (0 < maxOverlap q kb →
      ∃ e, kb.find? (fun x => keywordOverlap q x == maxOverlap q kb) = some e ∧
        match_answer kb q = (e.answer, e.topic)) := by
  constructor
  · intro h
    unfold match_answer
    rw [bestMatchGo_of_le q kb (none, 0) (fun e he => le_of_eq (h e he))]
  · intro hpos
    obtain ⟨e, hfind, hgo⟩ := bestMatchGo_argmax q kb (none, 0) hpos
    refine ⟨e, hfind, ?_⟩
    unfold match_answer
    rw [hgo]

/-- Witness for C8: a matching question finds the entry, an unrelated one
falls back. -/
theorem match_answer_fallback_or_best_witness :
    (match_answer [⟨["基准"], "基准选择", "a1"⟩] "今天天气如何" =
      (FALLBACK_ANSWER, "")) ∧
    (∃ e, ([⟨["基准"], "基准选择", "a1"⟩] : List QAEntry).find?
        (fun x => keywordOverlap "我不理解基准选择" x ==
          maxOverlap "我不理解基准选择" [⟨["基准"], "基准选择", "a1"⟩]) = some e ∧
      match_answer [⟨["基准"], "基准选择", "a1"⟩] "我不理解基准选择" =
        (e.answer, e.topic)) :=
  ⟨(match_answer_fallback_or_best [⟨["基准"], "基准选择", "a1"⟩] "今天天气如何").1
      (by decide),
    (match_answer_fallback_or_best [⟨["基准"], "基准选择", "a1"⟩] "我不理解基准选择").2
      (by decide)⟩
